import Mathlib

/-
Verification of the client-side result cache (CacheManager) and the
multi-source merge/validation pipeline (MusicPlayer) of the music web page.

The JavaScript source is shallowly embedded:
  * the persisted cache document (one JSON blob in localStorage under
    config.storageKey) becomes `StoredDoc`;
  * a JS object used as a string-keyed map becomes an association list
    (JS objects keep insertion order for string keys, and `Object.keys`
    iterates in that order, so a list is the faithful model);
  * `Date.now()` timestamps become `Nat` milliseconds threaded explicitly;
  * `JSON.parse` throwing on a corrupted document becomes `Except`.
-/

namespace Music

/-! ## Data model -/

/-- A merged search-result row, as produced by the `validateDataAPI*`
functions of MusicPlayer: `{source, id, title, artist, quality}`. -/
structure ResultItem where
  source : String
  id : Nat
  title : String
  artist : String
  quality : String
deriving DecidableEq, Repr

/-- JSON-style value stored as the `data` field of a cache entry.  The
cache treats the payload opaquely; the constructors cover the list payload
the player actually writes plus non-list JSON values that an external
actor could have stored. -/
inductive JValue
  | null
  | bool (b : Bool)
  | num (n : Int)
  | str (s : String)
  | list (items : List ResultItem)
deriving DecidableEq, Repr

/-- One cache entry: `{ data, timestamp, lru }` (timestamp is `createdAt`,
lru is `lastAccessedAt`, both `Date.now()` milliseconds). -/
structure Entry where
  data : JValue
  timestamp : Nat
  lru : Nat
deriving DecidableEq, Repr

/-- The parsed cache document: JS object mapping derived keys to entries,
kept in insertion order. -/
abbrev Cache : Type := List (String × Entry)

/-- The raw localStorage slot holding the serialized cache document:
either no document was ever written (`getItem` returns `null`), or the
document is corrupted (not valid JSON, `JSON.parse` throws), or it is the
serialization of a cache object. -/
inductive StoredDoc
  | absent
  | corrupt
  | stored (cache : Cache)
deriving DecidableEq, Repr

/-- The only failure CacheManager itself can raise: `JSON.parse` throwing
a SyntaxError on a corrupted document (there is no try/catch inside the
module). -/
inductive CacheError
  | parseError
deriving DecidableEq, Repr

/-! ## encodeURIComponent

`generateKey` builds keys with `encodeURIComponent(query).toLowerCase()`,
so the escaping function is modelled character by character. -/

/-- JS `String.prototype.toLowerCase`, character by character.
`Char.toLower` lowercases exactly the ASCII uppercase letters, which
matches `toLowerCase` on the ASCII strings this code lowercases (keys
produced by `encodeURIComponent` are pure ASCII). -/
def toLowerString (s : String) : String :=
  String.mk (s.data.map Char.toLower)

/-- The characters `encodeURIComponent` leaves unescaped:
`A-Z a-z 0-9` and `- _ . ! ~ * ' ( )` (listed by code point). -/
def isUnreservedChar (c : Char) : Bool :=
  c.isAlpha || c.isDigit || [45, 95, 46, 33, 126, 42, 39, 40, 41].contains c.toNat

/-- Uppercase hexadecimal digit, as produced in the `%XX` escapes. -/
def hexDigitChar (n : Nat) : Char :=
  if n < 10 then Char.ofNat (48 + n) else Char.ofNat (55 + n)

/-- UTF-8 byte sequence of a Unicode code point; `encodeURIComponent`
escapes the UTF-8 encoding of non-unreserved characters. -/
def utf8Bytes (n : Nat) : List Nat :=
  if n < 128 then [n]
  else if n < 2048 then [192 + n / 64, 128 + n % 64]
  else if n < 65536 then [224 + n / 4096, 128 + n / 64 % 64, 128 + n % 64]
  else [240 + n / 262144, 128 + n / 4096 % 64, 128 + n / 64 % 64, 128 + n % 64]

/-- One percent-escaped byte, e.g. byte 232 becomes `%E8`. -/
def percentByte (b : Nat) : String :=
  String.mk [Char.ofNat 37, hexDigitChar (b / 16), hexDigitChar (b % 16)]

/-- JS `encodeURIComponent`: unreserved characters pass through, every
other character is replaced by the percent-escapes of its UTF-8 bytes. -/
def encodeURIComponent (s : String) : String :=
  String.join (s.data.map fun c =>
    if isUnreservedChar c then String.singleton c
    else String.join ((utf8Bytes c.toNat).map percentByte))

/-! ## CacheManager (src/unnamed/part_001, lines 177-288) -/

namespace CacheManager

/-- `config.maxItems`: capacity bound of the store. -/
def maxItems : Nat := 15

/-- `config.expireHours`: TTL in hours. -/
def expireHours : Nat := 2

/-- `generateKey(query)`: `search_` prefix plus the lowercased
percent-encoding of the query. -/
def generateKey (query : String) : String :=
  "search_" ++ toLowerString (encodeURIComponent query)

/-- `JSON.parse(localStorage.getItem(this.config.storageKey)) || {}`:
an absent slot parses to `null` and the `||` defaults it to the empty
object; a corrupted document makes `JSON.parse` throw, and nothing in
CacheManager catches it. -/
def readStore : StoredDoc → Except CacheError Cache
  | .absent => .ok []
  | .corrupt => .error .parseError
  | .stored c => .ok c

/-- `cache[key]` lookup on the parsed object. -/
def lookupKey : Cache → String → Option Entry
  | [], _ => none
  | kv :: rest, key => if kv.1 == key then some kv.2 else lookupKey rest key

/-- `cache[key] = entry`: assigning an existing key overwrites it in
place (its position is kept); a new key is appended at the end, which is
the JS object insertion-order behavior. -/
def setKey : Cache → String → Entry → Cache
  | [], key, e => [(key, e)]
  | kv :: rest, key, e =>
    if kv.1 == key then (key, e) :: rest else kv :: setKey rest key e

/-- `isExpired(timestamp)`: JS computes
`(Date.now() - timestamp) / (1000*60*60) > this.config.expireHours`.
Over the rationals `d / 3600000 > 2` holds iff `d > 7200000`, so the
division is eliminated; near the boundary the JS float division is exact
(`7200000 / 3600000` is exactly `2`), so the comparison agrees.  A
timestamp in the future gives a negative difference in JS (not expired)
and truncated subtraction `0` here (also not expired). -/
def isExpired (now timestamp : Nat) : Bool :=
  decide (expireHours * 3600000 < now - timestamp)

/-- Phase 1 of `cleanCache`: the entries surviving the TTL sweep
(`delete cache[key]` for every expired key keeps the others in order). -/
def aliveEntries (now : Nat) (cache : Cache) : Cache :=
  cache.filter (fun kv => ! isExpired now kv.2.timestamp)

/-- The comparator `(a, b) => cache[a].lru - cache[b].lru` used on
`Object.keys`; sorting the key/entry pairs themselves is equivalent
because keys of a JS object are unique, and `Array.prototype.sort` is
stable (ES2019), as is `List.mergeSort`. -/
def lruLE (a b : String × Entry) : Bool :=
  decide (a.2.lru ≤ b.2.lru)

/-- `cleanCache(cache)`: delete expired entries; if more than `maxItems`
remain, sort the keys by `lru` ascending and delete the oldest
`keys.length - maxItems` of them.  Deleting from the object keeps the
surviving entries in their original insertion order. -/
def cleanCache (now : Nat) (cache : Cache) : Cache :=
  let alive := aliveEntries now cache
  if maxItems < alive.length then
    let victims := ((alive.mergeSort lruLE).take (alive.length - maxItems)).map Prod.fst
    alive.filter (fun kv => ! victims.contains kv.1)
  else alive

/-- `cache[key].lru = Date.now()` applied to the in-memory object. -/
def touchLRU : Cache → String → Nat → Cache
  | [], _, _ => []
  | kv :: rest, key, now =>
    if kv.1 == key then (kv.1, { kv.2 with lru := now }) :: rest
    else kv :: touchLRU rest key now

/-- `updateLRU(cache, key)`: if the key is present, refresh its `lru`
and persist the whole object with `setItem`; otherwise do nothing. -/
def updateLRU (cache : Cache) (key : String) (now : Nat) (doc : StoredDoc) :
    Cache × StoredDoc :=
  if (lookupKey cache key).isSome then
    let c2 := touchLRU cache key now
    (c2, .stored c2)
  else (cache, doc)

/-- `get(query)`: parse the stored document, look the derived key up;
on a present, non-expired entry refresh its `lru` (persisting the touch)
and return its `data`; otherwise return `null` leaving the slot as it
was.  The returned pair is (returned value, localStorage slot after the
call). -/
def get (doc : StoredDoc) (query : String) (now : Nat) :
    Except CacheError (JValue × StoredDoc) :=
  match readStore doc with
  | .error e => .error e
  | .ok cache =>
    match lookupKey cache (generateKey query) with
    | some item =>
      if isExpired now item.timestamp then .ok (.null, doc)
      else
        let (_, doc2) := updateLRU cache (generateKey query) now doc
        .ok (item.data, doc2)
    | none => .ok (.null, doc)

/-- `set(query, data)`: parse the stored document, run `cleanCache`,
insert/overwrite the entry with fresh `timestamp` and `lru`, persist. -/
def set (doc : StoredDoc) (query : String) (data : JValue) (now : Nat) :
    Except CacheError StoredDoc :=
  match readStore doc with
  | .error e => .error e
  | .ok cache =>
    .ok (.stored (setKey (cleanCache now cache) (generateKey query)
      { data := data, timestamp := now, lru := now }))

end CacheManager

/-- Entries held by a localStorage slot (empty unless a document is
stored). -/
def docEntries : StoredDoc → Cache
  | .stored c => c
  | _ => []

/-- Number of entries held by a localStorage slot. -/
def docSize (doc : StoredDoc) : Nat :=
  (docEntries doc).length

/-- Well-formedness of a parsed cache object: JS object keys are unique. -/
def cacheWF (c : Cache) : Prop :=
  (c.map Prod.fst).Nodup

instance (c : Cache) : Decidable (cacheWF c) := by unfold cacheWF; infer_instance

/-- Well-formedness of a localStorage slot. -/
def docWF : StoredDoc → Prop
  | .stored c => cacheWF c
  | _ => True

instance (doc : StoredDoc) : Decidable (docWF doc) := by
  unfold docWF; split <;> infer_instance

/-! ## MusicPlayer search pipeline (src/js/modules/MusicPlayer.js) -/

namespace MusicPlayer

/-- Raw item of the first source's `data` array, with the string fields
the validator reads (`n`, `song_title`, `song_singer`, `quality`).
Fields are modelled as present strings; `String(song.song_title)` is the
identity on a string, and `song.quality || defaultLabel` replaces a falsy
(empty) quality string. -/
structure API1Song where
  n : Nat
  song_title : String
  song_singer : String
  quality : String
deriving DecidableEq, Repr

/-- Envelope of the first source: `{ code, data }`, where a `data` field
that is not an array is modelled as `none` (the `Array.isArray` check
fails on it). -/
structure API1Resp where
  code : Int
  data : Option (List API1Song)
deriving DecidableEq, Repr

/-- Raw item of the second source's `data` array (`n`, `title`,
`singer`, `br`); a falsy `br` (absent or `0`) is modelled as `0`, which
`song.br || 1` replaces by `1`. -/
structure API2Song where
  n : Nat
  title : String
  singer : String
  br : Nat
deriving DecidableEq, Repr

/-- Envelope of the second source: `{ code, data }`. -/
structure API2Resp where
  code : Int
  data : Option (List API2Song)
deriving DecidableEq, Repr

/-- Raw item of the third source's `data` array; same fields as the
second source's items (`n`, `title`, `singer`, `br`). -/
structure API3Song where
  n : Nat
  title : String
  singer : String
  br : Nat
deriving DecidableEq, Repr

/-- Envelope of the third source: only the `data` array is consulted
(`validateDataAPI3` checks no status field). -/
structure API3Resp where
  data : Option (List API3Song)
deriving DecidableEq, Repr

/-- `mapQuality(br)`: fixed lookup table, unknown codes map to the
explicit unknown label. -/
def mapQuality (br : Nat) : String :=
  if br = 1 then "标准音质"
  else if br = 2 then "高品音质"
  else if br = 3 then "无损音质"
  else if br = 4 then "Hi-Res"
  else if br = 5 then "高清环绕声"
  else if br = 6 then "沉浸环绕声"
  else if br = 7 then "超清母带"
  else if br = 8 then "HQ高品质"
  else "未知音质"

/-- `validateDataAPI1(response)`: reject a missing response, a `code`
other than 200, or a non-array `data` with the empty list; otherwise map
every raw item to a ResultItem (no per-item filtering). -/
def validateDataAPI1 (response : Option API1Resp) : List ResultItem :=
  match response with
  | none => []
  | some r =>
    if r.code = 200 then
      match r.data with
      | some songs => songs.map (fun s =>
          { source := "QQ音乐", id := s.n, title := s.song_title,
            artist := s.song_singer,
            quality := if s.quality = "" then "标准音质" else s.quality })
      | none => []
    else []

/-- `validateDataAPI2(response)`: same envelope checks as the first
source; maps every raw item, with `mapQuality(song.br || 1)`. -/
def validateDataAPI2 (response : Option API2Resp) : List ResultItem :=
  match response with
  | none => []
  | some r =>
    if r.code = 200 then
      match r.data with
      | some songs => songs.map (fun s =>
          { source := "网易云", id := s.n, title := s.title,
            artist := s.singer,
            quality := mapQuality (if s.br = 0 then 1 else s.br) })
      | none => []
    else []

/-- `validateDataAPI3(response)`: only checks that `data` is an array
(no status-code check); maps every raw item. -/
def validateDataAPI3 (response : Option API3Resp) : List ResultItem :=
  match response with
  | none => []
  | some r =>
    match r.data with
    | some songs => songs.map (fun s =>
        { source := "酷狗音乐", id := s.n, title := s.title,
          artist := s.singer,
          quality := mapQuality (if s.br = 0 then 1 else s.br) })
    | none => []

/-- The composite dedup key: `lowercase(title) + "|" + lowercase(artist)`
(`String(item.title || '')` is the identity on the string fields of our
items, including the empty string). -/
def dedupKey (item : ResultItem) : String :=
  toLowerString item.title ++ "|" ++ toLowerString item.artist

/-- The `filter` with a `seen` set inside `mergeResults`: keep an item
iff its composite key has not been seen yet. -/
def mergeResultsAux : List ResultItem → List String → List ResultItem
  | [], _ => []
  | item :: rest, seen =>
    if seen.contains (dedupKey item) then mergeResultsAux rest seen
    else item :: mergeResultsAux rest (dedupKey item :: seen)

/-- `mergeResults(data)`: first-seen-wins dedup over the concatenated
adapter lists (the input is always an array here, so the
`Array.isArray` guard is vacuous). -/
def mergeResults (data : List ResultItem) : List ResultItem :=
  mergeResultsAux data []

/-- Outcome of one branch of the `Promise.allSettled` fan-out: fulfilled
with the parsed JSON (possibly JSON `null`, hence the `Option`), or
rejected (network failure or timeout). -/
inductive Settled (α : Type)
  | fulfilled (value : α)
  | rejected
deriving DecidableEq, Repr

/-- The pure data path of `searchSongs` after the fan-out settles
(lines 270-300): each fulfilled response goes through its validator, a
rejected branch contributes `[]`, and the three lists are concatenated
and deduplicated.  It is a total function: no combination of branch
outcomes makes it fail. -/
def searchPipeline (r1 : Settled (Option API1Resp)) (r2 : Settled (Option API2Resp))
    (r3 : Settled (Option API3Resp)) : List ResultItem :=
  let api1Data := match r1 with
    | .fulfilled v => validateDataAPI1 v
    | .rejected => []
  let api2Data := match r2 with
    | .fulfilled v => validateDataAPI2 v
    | .rejected => []
  let api3Data := match r3 with
    | .fulfilled v => validateDataAPI3 v
    | .rejected => []
  mergeResults (api1Data ++ api2Data ++ api3Data)

end MusicPlayer

/-! ## Helper lemmas about the cache operations -/

namespace CacheManager

theorem lookupKey_setKey (c : Cache) (k : String) (e : Entry) :
    lookupKey (setKey c k e) k = some e := by
  induction c with
  | nil => simp [setKey, lookupKey]
  | cons kv rest ih =>
    by_cases h : kv.1 == k
    · simp [setKey, h, lookupKey]
    · simp [setKey, h, lookupKey, ih]

theorem mem_setKey {c : Cache} {k : String} {e : Entry} {kv : String × Entry}
    (h : kv ∈ setKey c k e) : kv = (k, e) ∨ kv ∈ c := by
  induction c with
  | nil => simpa [setKey] using h
  | cons kv2 rest ih =>
    by_cases h2 : kv2.1 == k
    · simp only [setKey, if_pos h2, List.mem_cons] at h
      rcases h with h | h
      · exact .inl h
      · exact .inr (List.mem_cons_of_mem _ h)
    · simp only [setKey, if_neg h2, List.mem_cons] at h
      rcases h with h | h
      · exact .inr (h ▸ List.mem_cons_self _ _)
      · rcases ih h with h | h
        · exact .inl h
        · exact .inr (List.mem_cons_of_mem _ h)

theorem length_setKey (c : Cache) (k : String) (e : Entry) :
    (setKey c k e).length ≤ c.length + 1 := by
  induction c with
  | nil => simp [setKey]
  | cons kv rest ih =>
    by_cases h : kv.1 == k
    · simp [setKey, h]
    · simp only [setKey, if_neg h, List.length_cons]
      omega

theorem lookupKey_mem {c : Cache} {k : String} {e : Entry}
    (h : lookupKey c k = some e) : (k, e) ∈ c := by
  induction c with
  | nil => simp [lookupKey] at h
  | cons kv rest ih =>
    by_cases h2 : kv.1 == k
    · simp only [lookupKey, if_pos h2, Option.some.injEq] at h
      have : kv = (k, e) := by
        have := (beq_iff_eq (a := kv.1) (b := k)).mp h2
        cases kv; simp_all
      exact this ▸ List.mem_cons_self _ _
    · simp only [lookupKey, if_neg h2] at h
      exact List.mem_cons_of_mem _ (ih h)

theorem mem_aliveEntries {now : Nat} {cache : Cache} {kv : String × Entry} :
    kv ∈ aliveEntries now cache ↔
      kv ∈ cache ∧ isExpired now kv.2.timestamp = false := by
  simp [aliveEntries, List.mem_filter]

theorem cleanCache_sublist_alive (now : Nat) (cache : Cache) :
    (cleanCache now cache).Sublist (aliveEntries now cache) := by
  rw [cleanCache]
  split
  · exact List.filter_sublist _
  · exact List.Sublist.refl _

theorem mem_cleanCache_alive {now : Nat} {cache : Cache} {kv : String × Entry}
    (h : kv ∈ cleanCache now cache) : kv ∈ aliveEntries now cache :=
  (cleanCache_sublist_alive now cache).mem h

theorem map_ne_of_append_nodup {α β : Type} (f : α → β) {t d : List α}
    (h : ((t ++ d).map f).Nodup) {a b : α} (ha : a ∈ t) (hb : b ∈ d) :
    f a ≠ f b := by
  rw [List.map_append] at h
  rcases List.nodup_append.mp h with ⟨-, -, hdisj⟩
  intro he
  exact hdisj (List.mem_map_of_mem f ha) (he ▸ List.mem_map_of_mem f hb)

theorem lruLE_trans : ∀ a b c : String × Entry, lruLE a b → lruLE b c → lruLE a c := by
  intro a b c hab hbc
  simp only [lruLE, decide_eq_true_eq] at *
  omega

theorem lruLE_total : ∀ a b : String × Entry, lruLE a b || lruLE b a := by
  intro a b
  simp only [lruLE, Bool.or_eq_true, decide_eq_true_eq]
  omega

theorem cleanCache_eq_of_over {now : Nat} {cache : Cache}
    (hover : maxItems < (aliveEntries now cache).length) :
    cleanCache now cache =
      (aliveEntries now cache).filter (fun kv =>
        ! ((((aliveEntries now cache).mergeSort lruLE).take
            ((aliveEntries now cache).length - maxItems)).map Prod.fst).contains kv.1) := by
  simp only [cleanCache]
  rw [if_pos hover]

/-- Behavior of the LRU phase of `cleanCache` when the non-expired
entries exceed capacity: exactly `maxItems` survive, every evicted
non-expired entry has `lru` at most that of every survivor, and with
pairwise-distinct `lru` values, strictly smaller. -/
theorem cleanCache_over (now : Nat) (cache : Cache) (hwf : cacheWF cache)
    (hover : maxItems < (aliveEntries now cache).length) :
    (cleanCache now cache).length = maxItems ∧
    (∀ kv ∈ aliveEntries now cache, kv ∉ cleanCache now cache →
      ∀ kv2 ∈ cleanCache now cache, kv.2.lru ≤ kv2.2.lru) ∧
    (((aliveEntries now cache).map (fun kv => kv.2.lru)).Nodup →
      ∀ kv ∈ aliveEntries now cache, kv ∉ cleanCache now cache →
      ∀ kv2 ∈ cleanCache now cache, kv.2.lru < kv2.2.lru) := by
  obtain ⟨T, D, hT, hD⟩ : ∃ T D,
      T = ((aliveEntries now cache).mergeSort lruLE).take
        ((aliveEntries now cache).length - maxItems) ∧
      D = ((aliveEntries now cache).mergeSort lruLE).drop
        ((aliveEntries now cache).length - maxItems) := ⟨_, _, rfl, rfl⟩
  have hTD : T ++ D = (aliveEntries now cache).mergeSort lruLE := by
    rw [hT, hD, List.take_append_drop]
  have hpermTD : (T ++ D).Perm (aliveEntries now cache) := by
    rw [hTD]
    exact List.mergeSort_perm _ lruLE
  have hkeysAlive : ((aliveEntries now cache).map Prod.fst).Nodup :=
    List.Nodup.sublist (List.Sublist.map Prod.fst (List.filter_sublist cache)) hwf
  have hkeysTD : ((T ++ D).map Prod.fst).Nodup :=
    ((hpermTD.map Prod.fst).symm).nodup hkeysAlive
  have hclean : cleanCache now cache =
      (aliveEntries now cache).filter (fun kv => ! (T.map Prod.fst).contains kv.1) := by
    rw [cleanCache_eq_of_over hover, hT]
  have hTnil : T.filter (fun kv => ! (T.map Prod.fst).contains kv.1) = [] := by
    rw [List.filter_eq_nil_iff]
    intro kv hkv
    have hm : kv.1 ∈ T.map Prod.fst := List.mem_map_of_mem Prod.fst hkv
    simp [List.contains, hm]
  have hDall : D.filter (fun kv => ! (T.map Prod.fst).contains kv.1) = D := by
    rw [List.filter_eq_self]
    intro kv hkv
    simp only [List.contains, List.elem_eq_mem, Bool.not_eq_true', decide_eq_false_iff_not]
    intro hmem
    rcases List.mem_map.mp hmem with ⟨kv2, hkv2, hkeq⟩
    exact map_ne_of_append_nodup Prod.fst hkeysTD hkv2 hkv hkeq
  have hpermKeep : (cleanCache now cache).Perm D := by
    rw [hclean]
    have h1 : ((aliveEntries now cache).filter
        (fun kv => ! (T.map Prod.fst).contains kv.1)).Perm
        ((T ++ D).filter (fun kv => ! (T.map Prod.fst).contains kv.1)) :=
      (hpermTD.filter _).symm
    rwa [List.filter_append, hTnil, hDall, List.nil_append] at h1
  have hlenD : D.length = maxItems := by
    rw [hD, List.length_drop, List.length_mergeSort]
    omega
  have hlen : (cleanCache now cache).length = maxItems := by
    rw [hpermKeep.length_eq, hlenD]
  have hmemT : ∀ kv ∈ aliveEntries now cache, kv ∉ cleanCache now cache → kv ∈ T := by
    intro kv hkv hnot
    rcases List.mem_append.mp (hpermTD.mem_iff.mpr hkv) with h | h
    · exact h
    · exact absurd (hpermKeep.mem_iff.mpr h) hnot
  have hpwTD : (T ++ D).Pairwise (fun a b => lruLE a b = true) := by
    rw [hTD]
    exact List.sorted_mergeSort lruLE_trans lruLE_total (aliveEntries now cache)
  have hcross := (List.pairwise_append.mp hpwTD).2.2
  refine ⟨hlen, ?_, ?_⟩
  · intro kv hkv hnot kv2 hkv2
    have := hcross kv (hmemT kv hkv hnot) kv2 (hpermKeep.mem_iff.mp hkv2)
    simpa [lruLE] using this
  · intro hnd kv hkv hnot kv2 hkv2
    have h1 := hmemT kv hkv hnot
    have h2 := hpermKeep.mem_iff.mp hkv2
    have hle : kv.2.lru ≤ kv2.2.lru := by
      simpa [lruLE] using hcross kv h1 kv2 h2
    have hlruTD : ((T ++ D).map (fun kv => kv.2.lru)).Nodup :=
      ((hpermTD.map (fun kv => kv.2.lru)).symm).nodup hnd
    have hne : kv.2.lru ≠ kv2.2.lru := by
      simpa using map_ne_of_append_nodup (fun kv => kv.2.lru) hlruTD h1 h2
    omega

/-- The eviction sweep never leaves more than `maxItems` entries. -/
theorem cleanCache_length_le (now : Nat) (cache : Cache) (hwf : cacheWF cache) :
    (cleanCache now cache).length ≤ maxItems := by
  by_cases hover : maxItems < (aliveEntries now cache).length
  · exact le_of_eq (cleanCache_over now cache hwf hover).1
  · rw [cleanCache, if_neg hover]
    omega

end CacheManager

/-! ## Helper lemmas about the merge pipeline -/

namespace MusicPlayer

theorem mergeResultsAux_sublist :
    ∀ (l : List ResultItem) (seen : List String),
      (mergeResultsAux l seen).Sublist l
  | [], _ => List.Sublist.slnil
  | item :: rest, seen => by
    rw [mergeResultsAux]
    split
    · exact (mergeResultsAux_sublist rest seen).cons item
    · exact (mergeResultsAux_sublist rest _).cons₂ item

theorem mergeResultsAux_filter (k : String) :
    ∀ (l : List ResultItem) (seen : List String),
      (mergeResultsAux l seen).filter (fun it => dedupKey it == k) =
        if k ∈ seen then []
        else (l.filter (fun it => dedupKey it == k)).take 1
  | [], seen => by
    by_cases h : k ∈ seen <;> simp [mergeResultsAux, h]
  | item :: rest, seen => by
    rw [mergeResultsAux]
    by_cases hs : dedupKey item ∈ seen
    · rw [if_pos (by simpa [List.contains] using hs)]
      rw [mergeResultsAux_filter k rest seen]
      by_cases hk : dedupKey item = k
      · subst hk
        simp [hs]
      · have hb : (dedupKey item == k) = false := by simpa using hk
        by_cases h2 : k ∈ seen <;> simp [List.filter_cons, hb, h2]
    · rw [if_neg (by simpa [List.contains] using hs)]
      rw [List.filter_cons]
      by_cases hk : dedupKey item = k
      · subst hk
        rw [mergeResultsAux_filter (dedupKey item) rest (dedupKey item :: seen)]
        simp [hs, List.filter_cons]
      · have hb : (dedupKey item == k) = false := by simpa using hk
        rw [mergeResultsAux_filter k rest (dedupKey item :: seen)]
        have hk2 : k ≠ dedupKey item := fun h => hk h.symm
        by_cases h2 : k ∈ seen <;> simp [List.filter_cons, hb, h2, hk2]

theorem mergeResults_sublist (data : List ResultItem) :
    (mergeResults data).Sublist data :=
  mergeResultsAux_sublist data []

theorem mergeResults_filter (data : List ResultItem) (k : String) :
    (mergeResults data).filter (fun it => dedupKey it == k) =
      (data.filter (fun it => dedupKey it == k)).take 1 := by
  rw [mergeResults, mergeResultsAux_filter k data []]
  simp

end MusicPlayer

namespace CacheManager

/-- Shape of a successful `set`: the parse succeeded and the resulting
document is the cleaned store with the fresh entry written. -/
theorem set_ok_shape {doc : StoredDoc} {query : String} {data : JValue} {now : Nat}
    {doc2 : StoredDoc} (hset : set doc query data now = .ok doc2) :
    ∃ cache, readStore doc = .ok cache ∧
      doc2 = .stored (setKey (cleanCache now cache) (generateKey query)
        { data := data, timestamp := now, lru := now }) := by
  cases doc with
  | corrupt => simp [set, readStore] at hset
  | absent => exact ⟨[], rfl, by simpa [set, readStore] using hset.symm⟩
  | stored c => exact ⟨c, rfl, by simpa [set, readStore] using hset.symm⟩

end CacheManager

open CacheManager MusicPlayer

/-! ## Concrete stores and responses used by counterexamples and witnesses -/

/-- Iterates `CacheManager.set` over a list of queries against one
localStorage slot, as successive searches would do. -/
def setMany (doc : StoredDoc) (queries : List String) (data : JValue) (now : Nat) :
    Except CacheError StoredDoc :=
  queries.foldl (fun acc q =>
    match acc with
    | .error e => .error e
    | .ok d => CacheManager.set d q data now) (.ok doc)

/-- Sixteen pairwise distinct queries. -/
def sixteenQueries : List String :=
  ["a", "b", "c", "d", "e", "f", "g", "h", "i", "j", "k", "l", "m", "n", "o", "p"]

/-- A store holding one entry whose age at time 7200001 (one millisecond
past two hours) strictly exceeds the TTL. -/
def expiredCache : Cache :=
  [("search_a", { data := JValue.list [], timestamp := 0, lru := 0 })]

/-- A store holding one non-expired entry whose payload is not a list. -/
def c9Cache : Cache :=
  [("search_a", { data := JValue.num 42, timestamp := 0, lru := 0 })]

/-- A store with one entry exactly at the TTL boundary. -/
def boundaryCache : Cache :=
  [("search_a", { data := JValue.num 1, timestamp := 0, lru := 0 })]

/-- Sixteen non-expired entries with distinct keys and distinct `lru`
values. -/
def c4Cache : Cache :=
  (List.range 16).map (fun i =>
    ("search_" ++ String.mk [Char.ofNat (97 + i)],
     { data := JValue.list [], timestamp := 0, lru := i }))

/-- The spec's merge example: adapter-A item `{title:"Song",artist:"X"}`. -/
def specItemA : ResultItem :=
  { source := "QQ音乐", id := 1, title := "Song", artist := "X", quality := "标准音质" }

/-- The spec's merge example: adapter-B item `{title:"SONG",artist:"x"}`. -/
def specItemB : ResultItem :=
  { source := "网易云", id := 2, title := "SONG", artist := "x", quality := "标准音质" }

/-- An accepted first-source response whose single raw item has empty
title and artist. -/
def c8Resp : Option API1Resp :=
  some { code := 200,
         data := some [{ n := 1, song_title := "", song_singer := "", quality := "" }] }

/-! ## Claims -/

/-- Claim C1, counterexample: sixteen `set` calls with sixteen distinct
queries, starting from an absent store, leave sixteen entries — more
than `maxItems` — immediately after the last `set` returns.  `set` runs
the sweep (which trims to at most `maxItems`) before inserting, so the
insert itself can leave `maxItems + 1` entries. -/
theorem c1_counterexample :
    (setMany .absent sixteenQueries (JValue.list []) 0).map docSize = .ok 16 ∧
    CacheManager.maxItems < 16 :=
  ⟨rfl, by decide⟩

/-- Claim C1, amended: immediately after a successful `set` on a
well-formed store, the store holds at most `maxItems + 1` (16) entries:
the sweep leaves at most `maxItems` and the insert adds at most one. -/
theorem c1_amended (doc : StoredDoc) (query : String) (data : JValue) (now : Nat)
    (doc2 : StoredDoc) (hwf : docWF doc)
    (hset : CacheManager.set doc query data now = .ok doc2) :
    docSize doc2 ≤ CacheManager.maxItems + 1 := by
  obtain ⟨cache, hread, rfl⟩ := set_ok_shape hset
  have hc : cacheWF cache := by
    cases doc with
    | corrupt => simp [readStore] at hread
    | absent =>
      simp only [readStore, Except.ok.injEq] at hread
      subst hread
      simp [cacheWF]
    | stored c =>
      simp only [readStore, Except.ok.injEq] at hread
      subst hread
      exact hwf
  calc docSize (.stored (setKey (cleanCache now cache) (generateKey query)
          { data := data, timestamp := now, lru := now }))
      ≤ (cleanCache now cache).length + 1 := length_setKey _ _ _
    _ ≤ CacheManager.maxItems + 1 :=
        Nat.add_le_add_right (cleanCache_length_le now cache hc) 1

/-- Witness for `c1_amended` at a concrete input. -/
theorem c1_amended_witness :
    docWF StoredDoc.absent ∧
    CacheManager.set .absent "a" (JValue.list []) 0 =
      .ok (.stored [("search_a", { data := JValue.list [], timestamp := 0, lru := 0 })]) ∧
    docSize (.stored [("search_a", { data := JValue.list [], timestamp := 0, lru := 0 })]) ≤
      CacheManager.maxItems + 1 :=
  ⟨trivial, rfl, c1_amended .absent "a" (JValue.list []) 0 _ trivial rfl⟩

/-- Claim C2: a `get` performed right after a successful `set` with the
same query, at any time at which the written entry is not yet expired,
returns exactly the data that was written (nothing runs in between, so
in particular no eviction does). -/
theorem c2_roundtrip (doc : StoredDoc) (query : String) (data : JValue)
    (now1 now2 : Nat) (doc2 : StoredDoc)
    (hset : CacheManager.set doc query data now1 = .ok doc2)
    (hfresh : isExpired now2 now1 = false) :
    ∃ doc3, CacheManager.get doc2 query now2 = .ok (data, doc3) := by
  obtain ⟨cache, -, rfl⟩ := set_ok_shape hset
  have hlook := lookupKey_setKey (cleanCache now1 cache) (generateKey query)
    { data := data, timestamp := now1, lru := now1 }
  refine ⟨.stored (touchLRU (setKey (cleanCache now1 cache) (generateKey query)
    { data := data, timestamp := now1, lru := now1 }) (generateKey query) now2), ?_⟩
  simp [CacheManager.get, readStore, hlook, hfresh, updateLRU]

/-- Witness for `c2_roundtrip` at a concrete input. -/
theorem c2_roundtrip_witness :
    CacheManager.set .absent "a" (JValue.list [specItemA]) 0 =
      .ok (.stored [("search_a",
        { data := JValue.list [specItemA], timestamp := 0, lru := 0 })]) ∧
    isExpired 100 0 = false ∧
    ∃ doc3, CacheManager.get
      (.stored [("search_a", { data := JValue.list [specItemA], timestamp := 0, lru := 0 })])
      "a" 100 = .ok (JValue.list [specItemA], doc3) :=
  ⟨rfl, rfl, c2_roundtrip .absent "a" (JValue.list [specItemA]) 0 100 _ rfl rfl⟩

/-- Claim C3, counterexample: a `get` that observes an expired entry
(it parses the store, finds the entry and tests its age) returns `null`
but leaves the store byte-for-byte unchanged — the expired entry
survives the operation. -/
theorem c3_counterexample :
    isExpired 7200001 0 = true ∧
    lookupKey expiredCache (generateKey "a") ≠ none ∧
    CacheManager.get (.stored expiredCache) "a" 7200001 =
      .ok (JValue.null, .stored expiredCache) :=
  ⟨rfl, by decide, rfl⟩

/-- Claim C3, amended: only the sweep inside `set` removes expired
entries — after a successful `set` every surviving entry is non-expired
with respect to that `set` call's clock; a `get` that observes an
expired entry merely ignores it, returning `null` and leaving the store
unchanged. -/
theorem c3_amended :
    (∀ (doc : StoredDoc) (query : String) (data : JValue) (now : Nat) (doc2 : StoredDoc),
      CacheManager.set doc query data now = .ok doc2 →
      ∀ kv ∈ docEntries doc2, isExpired now kv.2.timestamp = false) ∧
    (∀ (cache : Cache) (query : String) (now : Nat) (e : Entry),
      lookupKey cache (generateKey query) = some e →
      isExpired now e.timestamp = true →
      CacheManager.get (.stored cache) query now = .ok (JValue.null, .stored cache)) := by
  constructor
  · intro doc query data now doc2 hset kv hkv
    obtain ⟨cache, -, rfl⟩ := set_ok_shape hset
    simp only [docEntries] at hkv
    rcases mem_setKey hkv with h | h
    · subst h
      simp [isExpired]
    · exact (mem_aliveEntries.mp (mem_cleanCache_alive h)).2
  · intro cache query now e hlook hexp
    simp [CacheManager.get, readStore, hlook, hexp]

/-- Witness for `c3_amended` at concrete inputs for both conjuncts. -/
theorem c3_amended_witness :
    (CacheManager.set (.stored expiredCache) "b" (JValue.list []) 7200001 =
        .ok (.stored [("search_b",
          { data := JValue.list [], timestamp := 7200001, lru := 7200001 })]) ∧
      ∀ kv ∈ docEntries (.stored [("search_b",
          { data := JValue.list [], timestamp := 7200001, lru := 7200001 })]),
        isExpired 7200001 kv.2.timestamp = false) ∧
    (lookupKey expiredCache (generateKey "a") =
        some { data := JValue.list [], timestamp := 0, lru := 0 } ∧
      isExpired 7200001 (0 : Nat) = true ∧
      CacheManager.get (.stored expiredCache) "a" 7200001 =
        .ok (JValue.null, .stored expiredCache)) :=
  ⟨⟨rfl, c3_amended.1 (.stored expiredCache) "b" (JValue.list []) 7200001 _ rfl⟩,
   ⟨rfl, rfl, c3_amended.2 expiredCache "a" 7200001
     { data := JValue.list [], timestamp := 0, lru := 0 } rfl rfl⟩⟩

/-- Claim C4: when the eviction sweep runs with more than `maxItems`
non-expired entries (keys of a JS object are unique), exactly `maxItems`
entries survive, every survivor is one of the non-expired entries, every
removed non-expired entry has `lru` at most that of every survivor, and
when the `lru` values are pairwise distinct, strictly smaller — so an
entry refreshed by an interleaved `get` (larger `lru`) survives over an
untouched entry with an older `lru`, which can only be among the
removed ones. -/
theorem c4_lru_eviction (now : Nat) (cache : Cache) (hwf : cacheWF cache)
    (hover : CacheManager.maxItems < (aliveEntries now cache).length) :
    (cleanCache now cache).length = CacheManager.maxItems ∧
    (∀ kv ∈ cleanCache now cache, kv ∈ aliveEntries now cache) ∧
    (∀ kv ∈ aliveEntries now cache, kv ∉ cleanCache now cache →
      ∀ kv2 ∈ cleanCache now cache, kv.2.lru ≤ kv2.2.lru) ∧
    (((aliveEntries now cache).map (fun kv => kv.2.lru)).Nodup →
      ∀ kv ∈ aliveEntries now cache, kv ∉ cleanCache now cache →
      ∀ kv2 ∈ cleanCache now cache, kv.2.lru < kv2.2.lru) := by
  obtain ⟨h1, h2, h3⟩ := cleanCache_over now cache hwf hover
  exact ⟨h1, fun kv hkv => mem_cleanCache_alive hkv, h2, h3⟩

/-- Witness for `c4_lru_eviction` at a concrete 16-entry store. -/
theorem c4_lru_eviction_witness :
    cacheWF c4Cache ∧
    CacheManager.maxItems < (aliveEntries 0 c4Cache).length ∧
    ((cleanCache 0 c4Cache).length = CacheManager.maxItems ∧
      (∀ kv ∈ cleanCache 0 c4Cache, kv ∈ aliveEntries 0 c4Cache) ∧
      (∀ kv ∈ aliveEntries 0 c4Cache, kv ∉ cleanCache 0 c4Cache →
        ∀ kv2 ∈ cleanCache 0 c4Cache, kv.2.lru ≤ kv2.2.lru) ∧
      (((aliveEntries 0 c4Cache).map (fun kv => kv.2.lru)).Nodup →
        ∀ kv ∈ aliveEntries 0 c4Cache, kv ∉ cleanCache 0 c4Cache →
        ∀ kv2 ∈ cleanCache 0 c4Cache, kv.2.lru < kv2.2.lru)) :=
  ⟨by decide, by decide, c4_lru_eviction 0 c4Cache (by decide) (by decide)⟩

/-- Claim C5, counterexample: with a corrupted stored document,
`JSON.parse` throws and neither `get` nor `set` catches it — both
operations propagate the error instead of treating the store as empty. -/
theorem c5_counterexample :
    CacheManager.get .corrupt "a" 0 = .error .parseError ∧
    CacheManager.set .corrupt "a" (JValue.list []) 0 = .error .parseError :=
  ⟨rfl, rfl⟩

/-- Claim C5, amended: only an absent document is treated as the empty
store (`JSON.parse(null)` is `null`, which `|| {}` replaces by the empty
object): there `get` degrades to a cache miss and `set` proceeds against
the empty mapping; a document that is not valid JSON makes `get` and
`set` throw. -/
theorem c5_amended (query : String) (data : JValue) (now : Nat) :
    CacheManager.get .absent query now = .ok (JValue.null, .absent) ∧
    CacheManager.set .absent query data now =
      .ok (.stored [(generateKey query, { data := data, timestamp := now, lru := now })]) ∧
    CacheManager.get .corrupt query now = .error .parseError ∧
    CacheManager.set .corrupt query data now = .error .parseError := by
  refine ⟨?_, ?_, rfl, rfl⟩
  · simp [CacheManager.get, readStore, lookupKey]
  · simp [CacheManager.set, readStore, cleanCache, aliveEntries, CacheManager.maxItems,
      setKey]

/-- Claim C6: the merged output is a sublist of the concatenated input
(survivors keep first-seen order), for every composite key the output
contains exactly the first input item bearing that key (later
duplicates are dropped, whatever their source), and on the spec's
example the adapter-A item wins over adapter-B's case-variant. -/
theorem c6_merge_dedup (data : List ResultItem) :
    (mergeResults data).Sublist data ∧
    (∀ k : String, (mergeResults data).filter (fun it => dedupKey it == k) =
      (data.filter (fun it => dedupKey it == k)).take 1) ∧
    mergeResults [specItemA, specItemB] = [specItemA] :=
  ⟨mergeResults_sublist data, fun k => mergeResults_filter data k, rfl⟩

/-- Claim C7: for every combination of adapter outcomes with at least
one fulfilled, the pipeline (a total function — it cannot reject)
returns the deduplicated union of the fulfilled adapters' validated
results, each rejected adapter contributing an empty list. -/
theorem c7_partial_failure :
    (∀ (v2 : Option API2Resp) (v3 : Option API3Resp),
      searchPipeline .rejected (.fulfilled v2) (.fulfilled v3) =
        mergeResults (validateDataAPI2 v2 ++ validateDataAPI3 v3)) ∧
    (∀ (v1 : Option API1Resp) (v3 : Option API3Resp),
      searchPipeline (.fulfilled v1) .rejected (.fulfilled v3) =
        mergeResults (validateDataAPI1 v1 ++ validateDataAPI3 v3)) ∧
    (∀ (v1 : Option API1Resp) (v2 : Option API2Resp),
      searchPipeline (.fulfilled v1) (.fulfilled v2) .rejected =
        mergeResults (validateDataAPI1 v1 ++ validateDataAPI2 v2)) ∧
    (∀ v1 : Option API1Resp,
      searchPipeline (.fulfilled v1) .rejected .rejected =
        mergeResults (validateDataAPI1 v1)) ∧
    (∀ v2 : Option API2Resp,
      searchPipeline .rejected (.fulfilled v2) .rejected =
        mergeResults (validateDataAPI2 v2)) ∧
    (∀ v3 : Option API3Resp,
      searchPipeline .rejected .rejected (.fulfilled v3) =
        mergeResults (validateDataAPI3 v3)) := by
  refine ⟨?_, ?_, ?_, ?_, ?_, ?_⟩ <;> intros <;> simp [searchPipeline]

/-- Claim C8, counterexample: an accepted response whose raw item has
empty title and artist is mapped to an output item with empty title and
artist (only its falsy quality is defaulted) — it is not dropped. -/
theorem c8_counterexample :
    validateDataAPI1 c8Resp =
      [{ source := "QQ音乐", id := 1, title := "", artist := "", quality := "标准音质" }] ∧
    ¬ (∀ it ∈ validateDataAPI1 c8Resp, it.title ≠ "" ∧ it.artist ≠ "") := by
  exact ⟨rfl, by decide⟩

/-- Claim C8, amended: the validators perform no per-item title/artist
check at all — every raw item of an accepted response is mapped to an
output item (the output has the same length as the raw `data` array),
empty-titled items included. -/
theorem c8_amended (l1 : List API1Song) (l2 : List API2Song) (l3 : List API3Song) :
    (validateDataAPI1 (some { code := 200, data := some l1 })).length = l1.length ∧
    (validateDataAPI2 (some { code := 200, data := some l2 })).length = l2.length ∧
    (validateDataAPI3 (some { data := some l3 })).length = l3.length := by
  refine ⟨?_, ?_, ?_⟩ <;>
    simp [validateDataAPI1, validateDataAPI2, validateDataAPI3]

/-- Claim C9, counterexample: `get` on a present, non-expired entry whose
payload is the number 42 (not a list) returns that payload, not the
`null` of a cache miss. -/
theorem c9_counterexample :
    (CacheManager.get (.stored c9Cache) "a" 5).map Prod.fst = .ok (JValue.num 42) ∧
    JValue.num 42 ≠ JValue.null :=
  ⟨rfl, by decide⟩

/-- Claim C9, amended: `get` performs no shape check on the payload — a
present, non-expired entry has its `data` returned unchanged whether or
not it is a list (and no error is surfaced). -/
theorem c9_amended (cache : Cache) (query : String) (now : Nat) (e : Entry)
    (hlook : lookupKey cache (generateKey query) = some e)
    (hfresh : isExpired now e.timestamp = false) :
    ∃ doc2, CacheManager.get (.stored cache) query now = .ok (e.data, doc2) := by
  refine ⟨.stored (touchLRU cache (generateKey query) now), ?_⟩
  simp [CacheManager.get, readStore, hlook, hfresh, updateLRU]

/-- Witness for `c9_amended` at the concrete non-list store. -/
theorem c9_amended_witness :
    lookupKey c9Cache (generateKey "a") =
      some { data := JValue.num 42, timestamp := 0, lru := 0 } ∧
    isExpired 5 (0 : Nat) = false ∧
    ∃ doc2, CacheManager.get (.stored c9Cache) "a" 5 = .ok (JValue.num 42, doc2) :=
  ⟨rfl, rfl, c9_amended c9Cache "a" 5
    { data := JValue.num 42, timestamp := 0, lru := 0 } rfl rfl⟩

/-- Claim C10: expiry is strict — an entry whose age is exactly the TTL
(`now - createdAt = expireHours` hours, i.e. 7200000 ms) is not expired:
`isExpired` is false, `get` still returns its data, and the eviction
sweep (here under capacity, so only the TTL phase acts) keeps it. -/
theorem c10_ttl_boundary (cache : Cache) (query : String) (now : Nat) (e : Entry)
    (hlook : lookupKey cache (generateKey query) = some e)
    (hage : now - e.timestamp = CacheManager.expireHours * 3600000)
    (hcap : (aliveEntries now cache).length ≤ CacheManager.maxItems) :
    isExpired now e.timestamp = false ∧
    (∃ doc2, CacheManager.get (.stored cache) query now = .ok (e.data, doc2)) ∧
    (generateKey query, e) ∈ cleanCache now cache := by
  have hexp : isExpired now e.timestamp = false := by
    simp [isExpired, hage]
  refine ⟨hexp, ⟨.stored (touchLRU cache (generateKey query) now), ?_⟩, ?_⟩
  · simp [CacheManager.get, readStore, hlook, hexp, updateLRU]
  · have hnot : ¬ CacheManager.maxItems < (aliveEntries now cache).length := by omega
    simp only [cleanCache]
    rw [if_neg hnot]
    exact mem_aliveEntries.mpr ⟨lookupKey_mem hlook, hexp⟩

/-- Witness for `c10_ttl_boundary` at an entry aged exactly two hours. -/
theorem c10_ttl_boundary_witness :
    lookupKey boundaryCache (generateKey "a") =
      some { data := JValue.num 1, timestamp := 0, lru := 0 } ∧
    (7200000 : Nat) - 0 = CacheManager.expireHours * 3600000 ∧
    (aliveEntries 7200000 boundaryCache).length ≤ CacheManager.maxItems ∧
    (isExpired 7200000 (0 : Nat) = false ∧
      (∃ doc2, CacheManager.get (.stored boundaryCache) "a" 7200000 =
        .ok (JValue.num 1, doc2)) ∧
      (generateKey "a", { data := JValue.num 1, timestamp := 0, lru := 0 }) ∈
        cleanCache 7200000 boundaryCache) :=
  ⟨rfl, rfl, by decide, c10_ttl_boundary boundaryCache "a" 7200000
    { data := JValue.num 1, timestamp := 0, lru := 0 } rfl rfl (by decide)⟩

end Music
